import Mathlib

/-!
Verification development for the Customer & Salesperson Dashboard
(src/CustomerStreamlitDashboard.py, the active code at lines 112-304).

The program is a linear pandas pipeline: load an Excel sheet into a
dataframe `df`, clean it with `dropna`, filter it by user-selected
salespersons / states / a name query, and compute derived aggregates
(value counts, unassigned customers, a per-state geo summary, a top-state
scalar) plus two exports.

Shallow embedding conventions:
- a dataframe row is a `Record` with the three columns the logic touches;
  a cell is `Option String` where `none` models a pandas null (NaN) and
  `some s` a string value (possibly the empty string, which pandas treats
  as an ordinary value, not as null);
- a raw uploaded table is a `RawTable`: the row list plus flags telling
  which of the referenced columns exist (pandas raises a KeyError when a
  missing column is accessed);
- pandas `Series.unique` is first-occurrence deduplication,
  `Series.value_counts` counts the distinct non-null values and sorts the
  resulting pairs descending by count (stable on ties, first-encountered
  value first), `DataFrame.groupby` sorts its group keys ascending and
  drops null keys. Sorting is modelled by a stable insertion sort `sortB`.
-/

namespace Dashboard

/-- One dataframe row, restricted to the columns the dashboard logic reads:
`Customer_Name`, `Sales_person`, `State`. `none` is a pandas null. -/
structure Record where
  customerName : Option String
  salesperson  : Option String
  state        : Option String
deriving DecidableEq, Repr

/-- Source line 128: `df_clean = df.dropna(subset=["Customer_Name", "Sales_person"])`.
`dropna` removes exactly the rows where one of the subset cells is null;
an empty string is not null and is kept. -/
def df_clean (df : List Record) : List Record :=
  df.filter (fun r => r.customerName.isSome && r.salesperson.isSome)

/-- Source line 131: `unassigned_customers = df[df["Sales_person"].isna()]["Customer_Name"]`.
Rows of the full (uncleaned) dataframe whose salesperson cell is null,
projected to the customer-name column, source order preserved. -/
def unassigned_customers (df : List Record) : List (Option String) :=
  (df.filter (fun r => r.salesperson.isNone)).map (fun r => r.customerName)

/-- First-occurrence deduplication, the semantics of pandas `Series.unique`:
keep the first occurrence of each value, in encounter order.
`seen` accumulates the values already emitted. -/
def firstDedupAux (seen : List String) : List String → List String
  | [] => []
  | x :: xs =>
    if seen.contains x then firstDedupAux seen xs
    else x :: firstDedupAux (x :: seen) xs

/-- `firstDedup l` lists the distinct values of `l` in first-encounter order. -/
def firstDedup (l : List String) : List String := firstDedupAux [] l

/-- Index of the first occurrence of `a` in `l` (length of `l` when absent);
used to state the first-encountered tie-break of `value_counts`. -/
def firstIdx (l : List String) (a : String) : Nat :=
  match l with
  | [] => 0
  | x :: xs => if x = a then 0 else firstIdx xs a + 1

/-- Source line 148: `salespersons = df_clean["Sales_person"].unique().tolist()`.
On the cleaned dataframe every salesperson cell is non-null, so the
column is its `filterMap`. -/
def salespersonsOf (dfc : List Record) : List String :=
  firstDedup (dfc.filterMap (fun r => r.salesperson))

/-- Source line 149: `states = df_clean["State"].dropna().unique().tolist()`
(and `[]` when the column is missing, in which case every modelled state
cell is `none`). -/
def statesOf (dfc : List Record) : List String :=
  firstDedup (dfc.filterMap (fun r => r.state))

/-- Lower-cased character list of a string, for the case-insensitive search. -/
def lowerChars (s : String) : List Char := s.toList.map Char.toLower

/-- `startsWithL p l` : `p` is a prefix of `l`. -/
def startsWithL : List Char → List Char → Bool
  | [], _ => true
  | _ :: _, [] => false
  | p :: ps, c :: cs => p == c && startsWithL ps cs

/-- `containsSub p l` : `p` occurs as a contiguous run inside `l`. -/
def containsSub (p : List Char) : List Char → Bool
  | [] => startsWithL p []
  | c :: cs => startsWithL p (c :: cs) || containsSub p cs

/-- Source line 161: `str.contains(search_name, case=False, na=False)`,
modelled as a case-insensitive substring test. (pandas additionally treats
the query as a regular expression; the claims below only exercise the
empty-query branch, where the two readings coincide.) -/
def containsCI (hay pat : String) : Bool :=
  containsSub (lowerChars pat) (lowerChars hay)

/-- Source lines 155-161: the filtered view.
`filtered_df = df_clean[ df_clean["Sales_person"].isin(selected_salespersons)
  & (df_clean["State"].isin(selected_states) if states else True) ]`,
then, when the search box is non-empty, a further case-insensitive
name-substring filter. Note that the `if states else True` guard tests the
options list computed from `df_clean`, not the user selection, and that a
null state cell is never `isin` any string list. -/
def filteredBase (dfc : List Record) (selS selSt : List String) : List Record :=
  dfc.filter (fun r =>
    (match r.salesperson with
     | some s => selS.contains s
     | none => false) &&
    (if (statesOf dfc).isEmpty then true
     else match r.state with
          | some st => selSt.contains st
          | none => false))

/-- The search refinement: empty search box (a falsy string in Python)
leaves the base filter untouched, otherwise rows whose customer name does
not contain the query case-insensitively are removed. -/
def filtered_df (dfc : List Record) (selS selSt : List String) (q : String) :
    List Record :=
  if q = "" then filteredBase dfc selS selSt
  else (filteredBase dfc selS selSt).filter (fun r =>
    match r.customerName with
    | some n => containsCI n q
    | none => false)

/-- Stable insertion of `x` into `l`: `x` is placed before the first
element `y` with `gt x y`, hence after every earlier element it does not
strictly precede. -/
def insertB {α : Type} (gt : α → α → Bool) (x : α) : List α → List α
  | [] => [x]
  | y :: ys => if gt x y then x :: y :: ys else y :: insertB gt x ys

/-- Stable insertion sort with respect to the strict priority `gt`
(`gt a b = true` meaning `a` must come strictly before `b`). -/
def sortB {α : Type} (gt : α → α → Bool) (l : List α) : List α :=
  l.foldl (fun acc x => insertB gt x acc) []

/-- pandas `Series.value_counts()`: count each distinct non-null value and
sort the (value, count) pairs descending by count; on equal counts the
first-encountered value comes first. -/
def value_counts (l : List String) : List (String × Nat) :=
  sortB (fun a b => decide (b.2 < a.2))
    ((firstDedup l).map (fun v => (v, l.count v)))

/-- Source lines 170-171:
`salesperson_counts = filtered_df["Sales_person"].value_counts()`.
Every row of a filtered view has a non-null salesperson, so the column is
the `filterMap`. -/
def salesperson_counts (fdf : List Record) : List (String × Nat) :=
  value_counts (fdf.filterMap (fun r => r.salesperson))

/-- Source line 203: `top_sales = salesperson_counts.head(5)`. -/
def top_sales (fdf : List Record) : List (String × Nat) :=
  (salesperson_counts fdf).take 5

/-- Source lines 270-281: the static `state_coords` dictionary mapping ten
state names to (latitude, longitude). Coordinates are modelled as exact
rationals. -/
def state_coords : List (String × Rat × Rat) :=
  [("Maharashtra", 19.7515, 75.7139),
   ("Delhi", 28.7041, 77.1025),
   ("Karnataka", 15.3173, 75.7139),
   ("Gujarat", 22.2587, 71.1924),
   ("Tamil Nadu", 11.1271, 78.6569),
   ("Uttar Pradesh", 26.8467, 80.9462),
   ("West Bengal", 22.9868, 87.8550),
   ("Madhya Pradesh", 23.4733, 77.9470),
   ("Rajasthan", 27.0238, 74.2179),
   ("Andhra Pradesh", 15.9129, 79.7400)]

/-- Source lines 286-287: `state_coords.get(x, [0, 0])`. -/
def lookupCoord (s : String) : Rat × Rat :=
  (state_coords.lookup s).getD (0, 0)

/-- Source lines 284-287: the map summary.
`df_map = df_clean.groupby("State")["Customer_Name"].count()` followed by
the two coordinate lookups. `groupby` drops null keys and sorts the
remaining keys ascending; `.count()` counts the non-null customer names of
each group. Each entry is (state, count, lat, lon). -/
def region_geo_summary (dfc : List Record) : List (String × Nat × Rat × Rat) :=
  (sortB (fun a b => decide (a < b)) (statesOf dfc)).map (fun s =>
    (s, dfc.countP (fun r => (r.state == some s) && r.customerName.isSome),
     (lookupCoord s).1, (lookupCoord s).2))

/-- An uploaded table as `pd.read_excel` returns it: the parsed rows plus
flags recording which of the three referenced columns are present in the
sheet (pandas raises a KeyError when an absent column is accessed). -/
structure RawTable where
  hasCustomerCol : Bool
  hasSalesCol : Bool
  hasStateCol : Bool
  rows : List Record
deriving DecidableEq, Repr

/-- Source line 128 applied to a raw table: `df.dropna(subset=[...])`
raises a KeyError when either subset column is missing from the sheet and
otherwise performs the null-row filter. The code has no validation of its
own before this point. -/
def cleanStep (t : RawTable) : Except String (List Record) :=
  if t.hasCustomerCol && t.hasSalesCol then .ok (df_clean t.rows)
  else .error "KeyError"

/-- Source line 137:
`top_state = df["State"].value_counts().idxmax() if "State" in df.columns else "N/A"`.
It runs on the full uncleaned dataframe; `idxmax` of an empty series (a
present State column whose values are all null, or no rows at all) raises
a ValueError, and otherwise returns the head of the descending value
counts. -/
def top_state (t : RawTable) : Except String String :=
  if t.hasStateCol then
    match value_counts (t.rows.filterMap (fun r => r.state)) with
    | [] => .error "ValueError"
    | x :: _ => .ok x.1
  else .ok "N/A"

/-- The load-to-aggregation path of the script with the default widget
state (all salespersons and all states selected, empty search box), with
its two failure points in script order: the KeyError of `cleanStep`
(line 128), then the ValueError of the `top_state` KPI (line 137, which
runs before the filter tab); when both succeed the pipeline reaches
aggregation and yields the cleaned rows, the top-state label and the
salesperson counts of the default filtered view. -/
def pipelineRun (t : RawTable) :
    Except String (List Record × String × List (String × Nat)) :=
  match cleanStep t with
  | .error e => .error e
  | .ok dfc =>
    match top_state t with
    | .error e => .error e
    | .ok ts => .ok (dfc, ts,
        salesperson_counts (filtered_df dfc (salespersonsOf dfc) (statesOf dfc) ""))

/-! Concrete sample data used by counterexamples and witnesses. -/

/-- Row ("Alice", "Bob", "Texas") from the spec scenario. -/
def recAlice : Record := ⟨some "Alice", some "Bob", some "Texas"⟩

/-- Row ("Dave", "Bob", null) from the spec scenario. -/
def recDave : Record := ⟨some "Dave", some "Bob", none⟩

/-- Row ("Carol", null, "Texas") from the spec scenario. -/
def recCarol : Record := ⟨some "Carol", none, some "Texas"⟩

/-- A row whose customer name is the empty string (not null). -/
def recEmptyName : Record := ⟨some "", some "Bob", none⟩

/-- A row whose salesperson is the empty string (not null). -/
def recEmptySales : Record := ⟨some "Carol", some "", some "Texas"⟩

/-- The three-row dataset of the spec scenario. -/
def exD : List Record := [recAlice, recCarol, recDave]

/-- A clean two-row dataset with one null-state row. -/
def dfc2 : List Record := [recAlice, recDave]

/-- A well-formed upload with all three columns and zero data rows. -/
def tEmpty : RawTable := ⟨true, true, true, []⟩

/-- A well-formed upload with no State column and zero data rows. -/
def tEmptyNoState : RawTable := ⟨true, true, false, []⟩

/-- An upload whose State column exists but holds only nulls. -/
def tAllNullState : RawTable := ⟨true, true, true, [⟨some "c", some "s", none⟩]⟩

/-- An upload where the most frequent state ("A") occurs only on rows that
cleaning removes. -/
def tMix : RawTable :=
  ⟨true, true, true,
   [⟨none, none, some "A"⟩, ⟨none, none, some "A"⟩,
    ⟨some "x", some "y", some "B"⟩]⟩

/-- A one-row clean dataset whose state is not in `state_coords`. -/
def dfAtl : List Record := [⟨some "X", some "Y", some "Atlantis"⟩]

/-! Helper lemmas. -/

theorem contains_mem {a : String} {l : List String} :
    l.contains a = true ↔ a ∈ l := List.elem_iff

theorem mem_firstDedupAux (a : String) :
    ∀ (l seen : List String), a ∈ firstDedupAux seen l ↔ a ∈ l ∧ a ∉ seen := by
  intro l
  induction l with
  | nil => intro seen; simp [firstDedupAux]
  | cons x xs ih =>
    intro seen
    by_cases hx : seen.contains x = true
    · rw [firstDedupAux, if_pos hx, ih]
      have hxs : x ∈ seen := contains_mem.mp hx
      constructor
      · rintro ⟨h1, h2⟩; exact ⟨List.mem_cons_of_mem _ h1, h2⟩
      · rintro ⟨h1, h2⟩
        rcases List.mem_cons.mp h1 with h | h
        · exact absurd (h ▸ hxs) h2
        · exact ⟨h, h2⟩
    · rw [firstDedupAux, if_neg hx]
      have hxs : x ∉ seen := fun hm => hx (contains_mem.mpr hm)
      by_cases hax : a = x
      · subst hax
        simp [hxs]
      · constructor
        · intro hmem
          rcases List.mem_cons.mp hmem with h | h
          · exact absurd h hax
          · have h2 := (ih (x :: seen)).mp h
            exact ⟨List.mem_cons_of_mem _ h2.1,
              fun hm => h2.2 (List.mem_cons_of_mem _ hm)⟩
        · rintro ⟨h1, h2⟩
          rcases List.mem_cons.mp h1 with h | h
          · exact absurd h hax
          · refine List.mem_cons_of_mem _ ((ih (x :: seen)).mpr ⟨h, fun hm => ?_⟩)
            rcases List.mem_cons.mp hm with h3 | h3
            · exact hax h3
            · exact h2 h3

theorem mem_firstDedup (a : String) (l : List String) :
    a ∈ firstDedup l ↔ a ∈ l := by
  rw [firstDedup, mem_firstDedupAux]; simp

theorem nodup_firstDedupAux :
    ∀ (l seen : List String), (firstDedupAux seen l).Nodup := by
  intro l
  induction l with
  | nil => intro seen; simp [firstDedupAux]
  | cons x xs ih =>
    intro seen
    by_cases hx : seen.contains x = true
    · rw [firstDedupAux, if_pos hx]; exact ih seen
    · rw [firstDedupAux, if_neg hx]
      refine List.nodup_cons.mpr ⟨?_, ih (x :: seen)⟩
      intro hmem
      exact ((mem_firstDedupAux x xs (x :: seen)).mp hmem).2 (List.mem_cons_self x seen)

theorem firstIdx_cons_self (x a : String) (xs : List String) (h : x = a) :
    firstIdx (x :: xs) a = 0 := by
  simp [firstIdx, h]

theorem firstIdx_cons_ne (x a : String) (xs : List String) (h : a ≠ x) :
    firstIdx (x :: xs) a = firstIdx xs a + 1 := by
  have hxa : ¬ x = a := fun he => h he.symm
  simp [firstIdx, hxa]

theorem pairwise_firstIdx_aux :
    ∀ (l seen : List String),
      (firstDedupAux seen l).Pairwise (fun a b => firstIdx l a < firstIdx l b) := by
  intro l
  induction l with
  | nil => intro seen; simp [firstDedupAux]
  | cons x xs ih =>
    intro seen
    by_cases hx : seen.contains x = true
    · rw [firstDedupAux, if_pos hx]
      have hmem : ∀ a ∈ firstDedupAux seen xs, a ≠ x := by
        intro a ha hax
        exact ((mem_firstDedupAux a xs seen).mp ha).2 (hax ▸ contains_mem.mp hx)
      refine List.Pairwise.imp_of_mem ?_ (ih seen)
      intro a b ha hb hab
      rw [firstIdx_cons_ne x a xs (hmem a ha), firstIdx_cons_ne x b xs (hmem b hb)]
      omega
    · rw [firstDedupAux, if_neg hx]
      refine List.pairwise_cons.mpr ⟨?_, ?_⟩
      · intro b hb
        have h2 := (mem_firstDedupAux b xs (x :: seen)).mp hb
        have hbx : b ≠ x := fun he => h2.2 (he ▸ List.mem_cons_self x seen)
        rw [firstIdx_cons_self x x xs rfl, firstIdx_cons_ne x b xs hbx]
        omega
      · have hmem : ∀ a ∈ firstDedupAux (x :: seen) xs, a ≠ x := by
          intro a ha hax
          exact ((mem_firstDedupAux a xs (x :: seen)).mp ha).2
            (hax ▸ List.mem_cons_self x seen)
        refine List.Pairwise.imp_of_mem ?_ (ih (x :: seen))
        intro a b ha hb hab
        rw [firstIdx_cons_ne x a xs (hmem a ha), firstIdx_cons_ne x b xs (hmem b hb)]
        omega

theorem mem_insertB {α : Type} (gt : α → α → Bool) (x z : α) :
    ∀ l : List α, z ∈ insertB gt x l ↔ z = x ∨ z ∈ l := by
  intro l
  induction l with
  | nil => simp [insertB]
  | cons y ys ih =>
    rw [insertB]
    by_cases h : gt x y = true
    · rw [if_pos h]
      simp [List.mem_cons]
    · rw [if_neg h]
      simp only [List.mem_cons, ih]
      tauto

theorem sum_map_insertB {α : Type} (f : α → Nat) (gt : α → α → Bool) (x : α) :
    ∀ l : List α, ((insertB gt x l).map f).sum = f x + (l.map f).sum := by
  intro l
  induction l with
  | nil => simp [insertB]
  | cons y ys ih =>
    rw [insertB]
    by_cases h : gt x y = true
    · rw [if_pos h]; simp
    · rw [if_neg h]; simp [ih]; omega

theorem sum_map_foldl_insertB {α : Type} (f : α → Nat) (gt : α → α → Bool) :
    ∀ (l acc : List α),
      ((l.foldl (fun acc x => insertB gt x acc) acc).map f).sum
        = (l.map f).sum + (acc.map f).sum := by
  intro l
  induction l with
  | nil => intro acc; simp
  | cons x xs ih =>
    intro acc
    rw [List.foldl_cons, ih, sum_map_insertB]
    simp
    omega

theorem mem_foldl_insertB {α : Type} (gt : α → α → Bool) (z : α) :
    ∀ (l acc : List α),
      z ∈ l.foldl (fun acc x => insertB gt x acc) acc ↔ z ∈ l ∨ z ∈ acc := by
  intro l
  induction l with
  | nil => intro acc; simp
  | cons x xs ih =>
    intro acc
    rw [List.foldl_cons, ih]
    rw [mem_insertB]
    simp only [List.mem_cons]
    tauto

theorem mem_sortB {α : Type} (gt : α → α → Bool) (z : α) (l : List α) :
    z ∈ sortB gt l ↔ z ∈ l := by
  rw [sortB, mem_foldl_insertB]; simp

theorem pairwise_insertB {α : Type} (key : α → Nat) (R : α → α → Prop) (x : α) :
    ∀ acc : List α,
      acc.Pairwise (fun a b => key b < key a ∨ (key a = key b ∧ R a b)) →
      (∀ y ∈ acc, key y = key x → R y x) →
      (insertB (fun a b => decide (key b < key a)) x acc).Pairwise
        (fun a b => key b < key a ∨ (key a = key b ∧ R a b)) := by
  intro acc
  induction acc with
  | nil => intro _ _; simp [insertB]
  | cons y ys ih =>
    intro hacc hx
    rw [insertB]
    by_cases h : (decide (key y < key x)) = true
    · rw [if_pos h]
      have hyx : key y < key x := of_decide_eq_true h
      refine List.pairwise_cons.mpr ⟨?_, hacc⟩
      intro z hz
      rcases List.mem_cons.mp hz with rfl | hz2
      · left; exact hyx
      · have hSyz := (List.pairwise_cons.mp hacc).1 z hz2
        left
        rcases hSyz with h1 | ⟨h1, _⟩
        · omega
        · omega
    · rw [if_neg h]
      have hxy : ¬ key y < key x := of_decide_eq_false (Bool.of_not_eq_true h)
      refine List.pairwise_cons.mpr ⟨?_, ?_⟩
      · intro z hz
        rcases (mem_insertB _ x z ys).mp hz with rfl | hz2
        · rcases Nat.lt_or_ge (key z) (key y) with hlt | hge
          · left; exact hlt
          · right
            have heq : key y = key z := by omega
            exact ⟨heq, hx y (List.mem_cons_self y ys) heq⟩
        · exact (List.pairwise_cons.mp hacc).1 z hz2
      · exact ih (List.pairwise_cons.mp hacc).2
          (fun w hw => hx w (List.mem_cons_of_mem _ hw))

theorem pairwise_foldl_insertB {α : Type} (key : α → Nat) (R : α → α → Prop) :
    ∀ (l acc : List α),
      acc.Pairwise (fun a b => key b < key a ∨ (key a = key b ∧ R a b)) →
      (∀ y ∈ acc, ∀ x ∈ l, key y = key x → R y x) →
      l.Pairwise (fun a b => key a = key b → R a b) →
      (l.foldl (fun acc x => insertB (fun a b => decide (key b < key a)) x acc)
          acc).Pairwise
        (fun a b => key b < key a ∨ (key a = key b ∧ R a b)) := by
  intro l
  induction l with
  | nil => intro acc hacc _ _; simpa using hacc
  | cons x xs ih =>
    intro acc hacc hcross hl
    rw [List.foldl_cons]
    refine ih _ ?_ ?_ (List.pairwise_cons.mp hl).2
    · exact pairwise_insertB key R x acc hacc
        (fun y hy he => hcross y hy x (List.mem_cons_self x xs) he)
    · intro y hy z hz he
      rcases (mem_insertB _ x y acc).mp hy with rfl | hy2
      · exact (List.pairwise_cons.mp hl).1 z hz he
      · exact hcross y hy2 z (List.mem_cons_of_mem x hz) he

theorem count_add_filter_ne_length (v : String) :
    ∀ l : List String, l.count v + (l.filter (fun y => y != v)).length = l.length := by
  intro l
  induction l with
  | nil => simp
  | cons x xs ih =>
    rw [List.count_cons, List.filter_cons]
    by_cases h : x = v
    · subst h
      simp only [beq_self_eq_true, if_true, bne_self_eq_false, Bool.false_eq_true,
        if_false, List.length_cons]
      omega
    · have hb : (x == v) = false := beq_eq_false_iff_ne.mpr h
      have hb2 : (x != v) = true := bne_iff_ne.mpr h
      simp only [hb, Bool.false_eq_true, if_false, hb2, if_true, List.length_cons]
      omega

theorem count_filter_ne (v a : String) (hav : a ≠ v) :
    ∀ l : List String, (l.filter (fun y => y != v)).count a = l.count a := by
  intro l
  induction l with
  | nil => simp
  | cons x xs ih =>
    rw [List.filter_cons]
    by_cases h : x = v
    · subst h
      simp only [bne_self_eq_false, Bool.false_eq_true, if_false]
      rw [List.count_cons, ih]
      have : (x == a) = false := beq_eq_false_iff_ne.mpr (fun he => hav (he ▸ rfl))
      simp [this]
    · have hb2 : (x != v) = true := bne_iff_ne.mpr h
      simp only [hb2, if_true]
      rw [List.count_cons, List.count_cons, ih]

theorem sum_counts_eq_length :
    ∀ (d l : List String), d.Nodup → (∀ a, a ∈ d ↔ a ∈ l) →
      ((d.map (fun v => l.count v)).sum) = l.length := by
  intro d
  induction d with
  | nil =>
    intro l _ hm
    have hl : l = [] := List.eq_nil_iff_forall_not_mem.mpr (fun a ha => by
      have := (hm a).mpr ha
      simp at this)
    subst hl; simp
  | cons v ds ih =>
    intro l hnd hm
    have hvd : v ∉ ds := (List.nodup_cons.mp hnd).1
    have hnds : ds.Nodup := (List.nodup_cons.mp hnd).2
    rw [List.map_cons, List.sum_cons]
    have hcongr : ds.map (fun a => l.count a)
        = ds.map (fun a => (l.filter (fun y => y != v)).count a) := by
      refine List.map_congr_left ?_
      intro a ha
      have hav : a ≠ v := fun he => hvd (he ▸ ha)
      exact (count_filter_ne v a hav l).symm
    rw [hcongr, ih (l.filter (fun y => y != v)) hnds ?memiff]
    · exact count_add_filter_ne_length v l
    case memiff =>
      intro a
      constructor
      · intro ha
        have hal : a ∈ l := (hm a).mp (List.mem_cons_of_mem v ha)
        have hav : a ≠ v := fun he => hvd (he ▸ ha)
        exact List.mem_filter.mpr ⟨hal, bne_iff_ne.mpr hav⟩
      · intro ha
        have h2 := List.mem_filter.mp ha
        have hav : a ≠ v := bne_iff_ne.mp h2.2
        rcases List.mem_cons.mp ((hm a).mpr h2.1) with he | hds
        · exact absurd he hav
        · exact hds

theorem sum_value_counts (l : List String) :
    ((value_counts l).map (fun p => p.2)).sum = l.length := by
  rw [value_counts, sortB, sum_map_foldl_insertB, List.map_map]
  have hc : ((fun p : String × Nat => p.2) ∘ fun v => (v, l.count v))
      = fun v => l.count v := rfl
  rw [hc]
  simp only [List.map_nil, List.sum_nil, Nat.add_zero]
  exact sum_counts_eq_length (firstDedup l) l (nodup_firstDedupAux l [])
    (fun a => (mem_firstDedup a l))

theorem lookup_eq_none_of_not_mem {β : Type} (s : String) :
    ∀ ps : List (String × β), s ∉ ps.map (fun p => p.1) → ps.lookup s = none := by
  intro ps
  induction ps with
  | nil => intro _; rfl
  | cons p ps ih =>
    obtain ⟨k, v⟩ := p
    intro h
    have h1 : s ≠ k := by
      intro he
      exact h (by rw [List.map_cons]; exact he ▸ List.mem_cons_self _ _)
    have h2 : s ∉ ps.map (fun p => p.1) := by
      intro hm
      exact h (by rw [List.map_cons]; exact List.mem_cons_of_mem _ hm)
    simp only [List.lookup, beq_eq_false_iff_ne.mpr h1]
    exact ih h2

/-! Claim C1. -/

/-- Claim C1, counterexample: `dropna` keeps a record whose customer name
is the empty string, so Clean does not exclude empty-string fields as the
claim states. -/
theorem clean_keeps_empty_name :
    df_clean [recEmptyName] = [recEmptyName]
    ∧ recEmptyName.customerName = some "" := by
  constructor <;> rfl

/-- Claim C1, amended: Clean(D) is an order-preserving sublist of D whose
records all have non-NULL customer name and salesperson, and it retains
every record of D with both fields non-null; empty strings are not
excluded. -/
theorem clean_sublist_nonnull (df : List Record) :
    (df_clean df).Sublist df
    ∧ (∀ r ∈ df_clean df,
        r.customerName.isSome = true ∧ r.salesperson.isSome = true)
    ∧ (∀ r ∈ df, r.customerName.isSome = true → r.salesperson.isSome = true →
        r ∈ df_clean df) := by
  refine ⟨List.filter_sublist df, ?_, ?_⟩
  · intro r hr
    have h2 := (List.mem_filter.mp hr).2
    simp only [Bool.and_eq_true] at h2
    exact h2
  · intro r hr h1 h2
    rw [df_clean]
    exact List.mem_filter.mpr ⟨hr, by rw [h1, h2]; rfl⟩

/-- Witness for the amended C1, at the three-row spec scenario. -/
theorem clean_sublist_nonnull_w :
    (df_clean exD).Sublist exD
    ∧ (∀ r ∈ df_clean exD,
        r.customerName.isSome = true ∧ r.salesperson.isSome = true)
    ∧ (∀ r ∈ exD, r.customerName.isSome = true → r.salesperson.isSome = true →
        r ∈ df_clean exD) :=
  clean_sublist_nonnull exD

/-! Claim C2. -/

/-- Claim C2, counterexample: on a clean dataset with one null-state row,
the default all-selected filter drops that row, so the default filter is
not the identity. -/
theorem default_filter_not_identity :
    df_clean dfc2 = dfc2
    ∧ filtered_df dfc2 (salespersonsOf dfc2) (statesOf dfc2) "" = [recAlice]
    ∧ filtered_df dfc2 (salespersonsOf dfc2) (statesOf dfc2) "" ≠ dfc2
    ∧ recDave ∈ dfc2 ∧ recDave.state = none := by
  refine ⟨rfl, rfl, by decide, by decide, rfl⟩

/-- Claim C2, amended: with the default criteria (all distinct
salespersons, all distinct states, empty query) the filter returns the
whole clean dataset when no record has a non-null state, and otherwise
exactly the records whose state is non-null: null-state records are
dropped whenever any non-null state exists. -/
theorem default_filter_eval (dfc : List Record)
    (h : ∀ r ∈ dfc, r.salesperson.isSome = true) :
    filtered_df dfc (salespersonsOf dfc) (statesOf dfc) "" =
      if (statesOf dfc).isEmpty then dfc
      else dfc.filter (fun r => r.state.isSome) := by
  have hsel : ∀ r ∈ dfc, (match r.salesperson with
      | some s => (salespersonsOf dfc).contains s
      | none => false) = true := by
    intro r hr
    rcases Option.isSome_iff_exists.mp (h r hr) with ⟨s, hs⟩
    rw [hs]
    refine contains_mem.mpr ?_
    rw [salespersonsOf, mem_firstDedup]
    exact List.mem_filterMap.mpr ⟨r, hr, hs⟩
  rw [filtered_df, if_pos rfl, filteredBase]
  by_cases hst : (statesOf dfc).isEmpty = true
  · rw [if_pos hst]
    refine List.filter_eq_self.mpr ?_
    intro r hr
    rw [hsel r hr, hst]
    rfl
  · rw [if_neg hst]
    refine List.filter_congr ?_
    intro r hr
    rw [hsel r hr, Bool.true_and, if_neg hst]
    cases hrs : r.state with
    | none => rfl
    | some st =>
      have hmem : st ∈ statesOf dfc := by
        rw [statesOf, mem_firstDedup]
        exact List.mem_filterMap.mpr ⟨r, hr, hrs⟩
      show (statesOf dfc).contains st = (some st).isSome
      rw [contains_mem.mpr hmem]
      rfl

/-- Witness for the amended C2, at the clean two-row dataset with a
null-state row: the default filter evaluates to the non-null-state rows. -/
theorem default_filter_eval_w :
    filtered_df dfc2 (salespersonsOf dfc2) (statesOf dfc2) "" =
      if (statesOf dfc2).isEmpty then dfc2
      else dfc2.filter (fun r => r.state.isSome) :=
  default_filter_eval dfc2 (by decide)

/-! Claim C3. -/

/-- Claim C3: an empty selected-salespersons list yields the empty
filtered view for every clean dataset, state selection and search query. -/
theorem empty_selection_empty (dfc : List Record) (selSt : List String)
    (q : String) :
    filtered_df dfc [] selSt q = [] := by
  have hbase : filteredBase dfc [] selSt = [] := by
    rw [filteredBase]
    refine List.filter_eq_nil_iff.mpr ?_
    intro r hr
    cases hrs : r.salesperson <;> simp
  rw [filtered_df, hbase]
  by_cases hq : q = ""
  · rw [if_pos hq]
  · rw [if_neg hq, List.filter_nil]

/-- Witness for C3 at a concrete dataset and non-trivial other criteria. -/
theorem empty_selection_empty_w :
    filtered_df (df_clean exD) [] ["Texas"] "ali" = [] :=
  empty_selection_empty (df_clean exD) ["Texas"] "ali"

/-! Claim C7. -/

/-- Claim C7, counterexample: a record whose salesperson is the empty
string (not null) is not listed among the unassigned customers, though
the claim says null-or-empty salespersons are. -/
theorem unassigned_misses_empty_sales :
    unassigned_customers [recEmptySales] = []
    ∧ recEmptySales.salesperson = some "" := by
  constructor <;> rfl

/-- Claim C7, amended: unassigned_customers is the customer-name column of
exactly the full-dataset records whose salesperson is null (empty strings
do not count), in dataset order and regardless of the customer name. -/
theorem unassigned_null_only (df : List Record) :
    (df.filter (fun r => r.salesperson.isNone)).Sublist df
    ∧ unassigned_customers df
        = (df.filter (fun r => r.salesperson.isNone)).map (fun r => r.customerName)
    ∧ (∀ r ∈ df, r.salesperson = none →
        r.customerName ∈ unassigned_customers df)
    ∧ (∀ r ∈ df.filter (fun r => r.salesperson.isNone), r.salesperson = none) := by
  refine ⟨List.filter_sublist df, rfl, ?_, ?_⟩
  · intro r hr h
    rw [unassigned_customers]
    exact List.mem_map_of_mem _ (List.mem_filter.mpr ⟨hr, by rw [h]; rfl⟩)
  · intro r hr
    have h2 := (List.mem_filter.mp hr).2
    cases h : r.salesperson
    · rfl
    · rw [h] at h2
      simp at h2

/-- Witness for the amended C7, at the three-row spec scenario (Carol is
the unassigned customer). -/
theorem unassigned_null_only_w :
    (exD.filter (fun r => r.salesperson.isNone)).Sublist exD
    ∧ unassigned_customers exD
        = (exD.filter (fun r => r.salesperson.isNone)).map (fun r => r.customerName)
    ∧ (∀ r ∈ exD, r.salesperson = none →
        r.customerName ∈ unassigned_customers exD)
    ∧ (∀ r ∈ exD.filter (fun r => r.salesperson.isNone), r.salesperson = none) :=
  unassigned_null_only exD

/-! Claim C4. -/

theorem mem_filtered_df_isSome (dfc : List Record) (selS selSt : List String)
    (q : String) (r : Record) (h : r ∈ filtered_df dfc selS selSt q) :
    r.salesperson.isSome = true := by
  have hbase : r ∈ filteredBase dfc selS selSt := by
    rw [filtered_df] at h
    by_cases hq : q = ""
    · rwa [if_pos hq] at h
    · rw [if_neg hq] at h
      exact (List.mem_filter.mp h).1
  rw [filteredBase] at hbase
  have h2 := (List.mem_filter.mp hbase).2
  cases hs : r.salesperson
  · rw [hs] at h2
    simp at h2
  · rfl

theorem length_filterMap_salesperson :
    ∀ l : List Record, (∀ r ∈ l, r.salesperson.isSome = true) →
      (l.filterMap (fun r => r.salesperson)).length = l.length := by
  intro l
  induction l with
  | nil => intro _; rfl
  | cons r rs ih =>
    intro h
    rcases Option.isSome_iff_exists.mp (h r (List.mem_cons_self r rs)) with ⟨s, hs⟩
    rw [List.filterMap_cons, hs]
    simp only [List.length_cons]
    rw [ih (fun x hx => h x (List.mem_cons_of_mem r hx))]

/-- Claim C4: for every filtered view, the per-salesperson counts of
`value_counts` add up to the number of records in the view; no record is
double-counted or dropped. -/
theorem counts_sum_eq_length (dfc : List Record) (selS selSt : List String)
    (q : String) :
    ((salesperson_counts (filtered_df dfc selS selSt q)).map (fun p => p.2)).sum
      = (filtered_df dfc selS selSt q).length := by
  rw [salesperson_counts, sum_value_counts]
  exact length_filterMap_salesperson _
    (fun r hr => mem_filtered_df_isSome dfc selS selSt q r hr)

/-- Witness for C4 at the spec scenario under a concrete filter. -/
theorem counts_sum_eq_length_w :
    ((salesperson_counts (filtered_df (df_clean exD) ["Bob"] ["Texas"] "")).map
        (fun p => p.2)).sum
      = (filtered_df (df_clean exD) ["Bob"] ["Texas"] "").length :=
  counts_sum_eq_length (df_clean exD) ["Bob"] ["Texas"] ""

/-! Claim C8. -/

theorem pairwise_firstIdx (l : List String) :
    (firstDedup l).Pairwise (fun a b => firstIdx l a < firstIdx l b) := by
  rw [firstDedup]
  exact pairwise_firstIdx_aux l []

/-- Claim C8: salesperson_counts is ordered descending by count, ties
broken by the first occurrence of the salesperson in the filtered view
(earlier first occurrence first), and the Top N chart takes the first
five entries of this ordering. -/
theorem counts_sorted_stable (fdf : List Record) :
    ((salesperson_counts fdf).Pairwise (fun a b =>
        b.2 ≤ a.2 ∧ (a.2 = b.2 →
          firstIdx (fdf.filterMap (fun r => r.salesperson)) a.1
            < firstIdx (fdf.filterMap (fun r => r.salesperson)) b.1)))
    ∧ top_sales fdf = (salesperson_counts fdf).take 5 := by
  refine ⟨?_, rfl⟩
  have hS : (salesperson_counts fdf).Pairwise (fun a b =>
      b.2 < a.2 ∨ (a.2 = b.2 ∧
        firstIdx (fdf.filterMap (fun r => r.salesperson)) a.1
          < firstIdx (fdf.filterMap (fun r => r.salesperson)) b.1)) := by
    rw [salesperson_counts, value_counts, sortB]
    refine pairwise_foldl_insertB (fun p : String × Nat => p.2)
      (fun a b => firstIdx (fdf.filterMap (fun r => r.salesperson)) a.1
        < firstIdx (fdf.filterMap (fun r => r.salesperson)) b.1)
      _ [] (by simp) (by simp) ?_
    refine List.pairwise_map.mpr ?_
    refine List.Pairwise.imp ?_
      (pairwise_firstIdx (fdf.filterMap (fun r => r.salesperson)))
    intro a b hab _
    exact hab
  refine hS.imp ?_
  intro a b hab
  rcases hab with h1 | ⟨h1, h2⟩
  · exact ⟨Nat.le_of_lt h1, fun he => absurd (he ▸ h1) (lt_irrefl _)⟩
  · exact ⟨Nat.le_of_eq h1.symm, fun _ => h2⟩

/-- Witness for C8 at a concrete filtered view with tied counts. -/
theorem counts_sorted_stable_w :
    ((salesperson_counts (df_clean exD)).Pairwise (fun a b =>
        b.2 ≤ a.2 ∧ (a.2 = b.2 →
          firstIdx ((df_clean exD).filterMap (fun r => r.salesperson)) a.1
            < firstIdx ((df_clean exD).filterMap (fun r => r.salesperson)) b.1)))
    ∧ top_sales (df_clean exD) = (salesperson_counts (df_clean exD)).take 5 :=
  counts_sorted_stable (df_clean exD)

/-! Claim C5. -/

/-- Claim C5, counterexample: an upload with the required columns, no
State column and zero data rows raises no error at all; the pipeline runs
through cleaning, the top-state KPI and aggregation and yields empty
results, instead of halting with an EmptyInputError before aggregation. -/
theorem zero_rows_reach_aggregation :
    pipelineRun tEmptyNoState = .ok ([], "N/A", []) := rfl

/-- Claim C5, amended: the code performs no input validation of its own
and has no FormatError or EmptyInputError. A missing required column
surfaces as an uncaught KeyError when the dropna of Clean runs. A
zero-row input is never detected as such: when the sheet has no State
column the pipeline proceeds through cleaning, the top-state KPI and
aggregation, producing empty views; when a State column is present the
script instead crashes at the top-state KPI of line 137 (the ValueError
of idxmax on an empty value-counts series) before filtering and
aggregation - an incidental crash, not an EmptyInputError. -/
theorem ingest_no_empty_check (t : RawTable) :
    (t.rows = [] → t.hasCustomerCol = true → t.hasSalesCol = true →
      t.hasStateCol = false →
      pipelineRun t = .ok ([], "N/A", []) ∧ unassigned_customers t.rows = [])
    ∧ (t.rows = [] → t.hasCustomerCol = true → t.hasSalesCol = true →
      t.hasStateCol = true →
      pipelineRun t = .error "ValueError")
    ∧ ((t.hasCustomerCol && t.hasSalesCol) = false →
      pipelineRun t = .error "KeyError") := by
  refine ⟨?_, ?_, ?_⟩
  · intro hr hc hs hst
    have h1 : cleanStep t = .ok [] := by
      rw [cleanStep, hc, hs, hr]
      rfl
    have h2 : top_state t = .ok "N/A" := by
      rw [top_state, if_neg (by rw [hst]; exact Bool.false_ne_true)]
    constructor
    · rw [pipelineRun, h1, h2]
      rfl
    · rw [hr]
      rfl
  · intro hr hc hs hst
    have h1 : cleanStep t = .ok [] := by
      rw [cleanStep, hc, hs, hr]
      rfl
    have h2 : top_state t = .error "ValueError" := by
      rw [top_state, if_pos hst, hr]
      rfl
    rw [pipelineRun, h1, h2]
  · intro hcol
    rw [pipelineRun, cleanStep, hcol]
    rfl

/-- Witness for the amended C5, at the two zero-row uploads: without a
State column the pipeline succeeds with empty views, with one it crashes
with the line-137 ValueError. -/
theorem ingest_no_empty_check_w :
    (pipelineRun tEmptyNoState = .ok ([], "N/A", [])
      ∧ unassigned_customers tEmptyNoState.rows = [])
    ∧ pipelineRun tEmpty = .error "ValueError" :=
  ⟨(ingest_no_empty_check tEmptyNoState).1 rfl rfl rfl rfl,
   (ingest_no_empty_check tEmpty).2.1 rfl rfl rfl rfl⟩

/-! Claim C6. -/

/-- Claim C6: every distinct non-null region of the clean dataset appears
in the geo summary with its member count and its looked-up coordinates
(the member count equals the plain group size because clean records have
non-null customer names), and a region absent from the static ten-entry
table gets the sentinel coordinates (0, 0). -/
theorem region_geo (df : List Record) (s : String)
    (hs : s ∈ statesOf (df_clean df)) :
    (s, (df_clean df).countP
          (fun r => (r.state == some s) && r.customerName.isSome),
        (lookupCoord s).1, (lookupCoord s).2) ∈ region_geo_summary (df_clean df)
    ∧ (df_clean df).countP (fun r => (r.state == some s) && r.customerName.isSome)
        = (df_clean df).countP (fun r => r.state == some s)
    ∧ (s ∉ state_coords.map (fun p => p.1) → lookupCoord s = (0, 0)) := by
  refine ⟨?_, ?_, ?_⟩
  · rw [region_geo_summary]
    exact List.mem_map_of_mem _ ((mem_sortB _ s _).mpr hs)
  · rw [List.countP_eq_length_filter, List.countP_eq_length_filter]
    congr 1
    refine List.filter_congr ?_
    intro r hr
    have hcn : r.customerName.isSome = true := by
      rw [df_clean] at hr
      have h2 := (List.mem_filter.mp hr).2
      simp only [Bool.and_eq_true] at h2
      exact h2.1
    rw [hcn, Bool.and_true]
  · intro hnot
    rw [lookupCoord, lookup_eq_none_of_not_mem s state_coords hnot]
    rfl

/-- Witness for C6 at a dataset whose only region, Atlantis, is not in
the static table. -/
theorem region_geo_w :
    ("Atlantis", (df_clean dfAtl).countP
          (fun r => (r.state == some "Atlantis") && r.customerName.isSome),
        (lookupCoord "Atlantis").1, (lookupCoord "Atlantis").2)
        ∈ region_geo_summary (df_clean dfAtl)
    ∧ (df_clean dfAtl).countP
          (fun r => (r.state == some "Atlantis") && r.customerName.isSome)
        = (df_clean dfAtl).countP (fun r => r.state == some "Atlantis")
    ∧ ("Atlantis" ∉ state_coords.map (fun p => p.1) →
        lookupCoord "Atlantis" = (0, 0)) :=
  region_geo dfAtl "Atlantis" (by decide)

/-! Claim C10. -/

/-- Claim C10: when a State column exists but every value in it is null,
the Top State computation fails (the idxmax of an empty value-count
series), and the scalar is computed over the full uncleaned dataset: in
`tMix` the reported top state A has no row at all in the cleaned data. -/
theorem top_state_spec :
    (∀ t : RawTable, t.hasStateCol = true → (∀ r ∈ t.rows, r.state = none) →
        top_state t = .error "ValueError")
    ∧ top_state tMix = .ok "A"
    ∧ (df_clean tMix.rows).countP (fun r => r.state == some "A") = 0 := by
  refine ⟨?_, rfl, rfl⟩
  intro t ht hnone
  rw [top_state, if_pos ht, List.filterMap_eq_nil_iff.mpr hnone]
  rfl

/-- Witness for C10 at an upload whose State column holds only nulls. -/
theorem top_state_spec_w :
    top_state tAllNullState = .error "ValueError" :=
  top_state_spec.1 tAllNullState rfl (by decide)

end Dashboard
